import Mathlib

/-!
Shallow embedding of the data-model unification and migration subsystem of
the sf-app repository, together with theorems settling the frozen claims.

Source files embedded:
- `src/types/dataStructure.ts` (unified model types)
- `src/utils/storage.ts` (legacy model types)
- `src/utils/debugLogger.ts`, second document: `DataMigration`
  (`migrateToUnifiedStructure`, `migrateToOldStructure`)
- `src/utils/unifiedDataManager.ts` (`UnifiedDataManager`)
- `src/unnamed/part_000` (`UnifiedStorage`: `needsMigration`, `loadUnifiedData`)

Modelling conventions:
- JavaScript numbers are modelled as `Int` (all numeric fields hold integral
  timestamps or counts); JS truthiness of a number is `≠ 0`, of a string `≠ ""`.
- `Record<string, T>` objects are modelled as association lists
  `List (String × T)` with JS-object key semantics (`setKey` overwrites an
  existing key in place, otherwise appends; lookup finds the first match).
- Fallible operations (JSON.parse, AsyncStorage reads) are modelled with
  `Option` / an explicit error constructor.
- Array indices coming from callers are modelled as `Int`, since the
  out-of-bounds policy of the manager explicitly handles negative indices.
-/

namespace SfApp

/-- Unit status tag, from `src/types/dataStructure.ts` (`UnitStatus`). -/
inductive UnitStatus where
  | normal
  | recommended
  | favorite
  | trash
deriving DecidableEq, Repr

/-- Level naming convention, `"numeric" | "alpha"` in the source. -/
inductive Identifier where
  | numeric
  | alpha
deriving DecidableEq, Repr

/-- Feature type, `"numeric" | "single_choice"` in the source. -/
inductive FeatureType where
  | numeric
  | single_choice
deriving DecidableEq, Repr

/-- A feature value is `number | boolean` in the source. -/
inductive FeatureValue where
  | num (n : Int)
  | flag (b : Bool)
deriving DecidableEq, Repr

/-- Entry of a unit's `features` list (`UnitFeatureValue` in the source). -/
structure UnitFeatureValue where
  featureId : String
  value : FeatureValue
deriving DecidableEq, Repr

/-- Unified-model unit (`Unit` in `src/types/dataStructure.ts`).  The two
optional fields are modelled with `Option`; `none` is JS `undefined` /
an absent property. -/
structure Unit where
  id : String
  name : String
  status : UnitStatus
  features : List UnitFeatureValue
  favoriteReason : Option String
  favoriteCreatedAt : Option Int
deriving DecidableEq, Repr

/-- Unified-model level. -/
structure Level where
  id : String
  name : String
  identifier : Identifier
  units : List Unit
  createdAt : Int
deriving DecidableEq, Repr

/-- Unified-model collection. -/
structure Collection where
  id : String
  name : String
  createdAt : Int
  levels : List Level
deriving DecidableEq, Repr

/-- Global feature (`Feature` in `src/types/dataStructure.ts`). -/
structure Feature where
  id : String
  name : String
  type : FeatureType
  createdAt : Int
deriving DecidableEq, Repr

/-- Root structure: `{ collections: Collection[], features: Record<string, Feature> }`.
The `features` record is modelled as an association list with JS object
semantics. -/
structure DataStructure where
  collections : List Collection
  features : List (String × Feature)
deriving DecidableEq, Repr

/-! Legacy model, from `src/utils/storage.ts`. -/

/-- Legacy unit: `{ id, name }`. -/
structure OldUnit where
  id : String
  name : String
deriving DecidableEq, Repr

/-- Legacy collection: `{ id, name, createdAt }`. -/
structure OldCollection where
  id : String
  name : String
  createdAt : Int
deriving DecidableEq, Repr

/-- Legacy level: carries its owning `collectionId` and its own `units`. -/
structure OldLevel where
  id : String
  collectionId : String
  name : String
  identifier : Identifier
  units : List OldUnit
  createdAt : Int
deriving DecidableEq, Repr

/-- Legacy feature: carries a `collectionId` (`"global"` means global). -/
structure OldFeature where
  id : String
  collectionId : String
  name : String
  type : FeatureType
  createdAt : Int
deriving DecidableEq, Repr

/-- Legacy flat join row: `{ unitId, featureId, value }`. -/
structure UnitFeature where
  unitId : String
  featureId : String
  value : FeatureValue
deriving DecidableEq, Repr

/-- Legacy recommended-list entry. -/
structure RecommendedUnit where
  unit : OldUnit
  levelName : String
  levelId : String
  collectionId : String
deriving DecidableEq, Repr

/-- Legacy trashed-list entry. -/
structure TrashedUnit where
  unit : OldUnit
  levelName : String
  levelId : String
  collectionId : String
deriving DecidableEq, Repr

/-- Legacy favorite-list entry; also carries `reason` and `createdAt`. -/
structure FavoriteUnit where
  unit : OldUnit
  levelName : String
  levelId : String
  collectionId : String
  reason : String
  createdAt : Int
deriving DecidableEq, Repr

/-! Association lists with JavaScript object-key semantics. -/

/-- Lookup of `m[k]`: the first entry with the key (JS objects hold each key
at most once, which `setKey` maintains). `none` is JS `undefined`. -/
def jsLookup {α : Type} (m : List (String × α)) (k : String) : Option α :=
  (m.find? fun p => p.1 == k).map fun p => p.2

/-- Lookup with a default, modelling `m[k] ?? d` / `m[k] || d` on lists. -/
def jsLookupD {α : Type} (m : List (String × α)) (k : String) (d : α) : α :=
  (jsLookup m k).getD d

/-- Assignment `m[k] = v` on a JS object: overwrite the existing key in
place, otherwise append the new key at the end (JS insertion order). -/
def setKey {α : Type} : List (String × α) → String → α → List (String × α)
  | [], k, v => [(k, v)]
  | p :: rest, k, v =>
      if p.1 == k then (k, v) :: rest else p :: setKey rest k v

/-- Deletion `delete m[k]`. -/
def removeKey {α : Type} (m : List (String × α)) (k : String) : List (String × α) :=
  m.filter fun p => p.1 != k

/-! Migration engine, from `DataMigration` in `src/utils/debugLogger.ts`
(second document).  The inline closures of the source are hoisted into
named helper definitions; each helper receives exactly the data the
closure captured. -/

/-- JS `s || d` for an optional string (`undefined` and `""` are falsy). -/
def jsOrStr (o : Option String) (d : String) : String :=
  match o with
  | some s => if s == "" then d else s
  | none => d

/-- JS `n || d` for an optional number (`undefined` and `0` are falsy). -/
def jsOrInt (o : Option Int) (d : Int) : Int :=
  match o with
  | some n => if n == 0 then d else n
  | none => d

/-- Body of the `oldLevel.units.map` closure of `migrateToUnifiedStructure`:
derive the status by the favorite > recommended > trash > normal priority
chain, attach favorite metadata (through the JS spread-with-truthiness
idiom `...(x && \x7b x \x7d)`), and collect this unit's feature rows.
`favoriteUnits` etc. are the per-collection-and-level filtered lists. -/
def deriveUnit (oldUnitFeatures : List UnitFeature)
    (recommendedUnits : List RecommendedUnit) (trashedUnits : List TrashedUnit)
    (favoriteUnits : List FavoriteUnit) (oldUnit : OldUnit) : Unit :=
  let recommendedUnitIds := recommendedUnits.map fun ru => ru.unit.id
  let trashedUnitIds := trashedUnits.map fun tu => tu.unit.id
  let favoriteUnitIds := favoriteUnits.map fun fu => fu.unit.id
  -- `new Map(favoriteUnits.map(fu => [fu.unit.id, fu]))`: later entries win,
  -- so `.get` returns the last entry with the id.
  let favoriteUnit := favoriteUnits.reverse.find? fun fu => fu.unit.id == oldUnit.id
  let status : UnitStatus :=
    if favoriteUnitIds.contains oldUnit.id then .favorite
    else if recommendedUnitIds.contains oldUnit.id then .recommended
    else if trashedUnitIds.contains oldUnit.id then .trash
    else .normal
  let favoriteReason : Option String :=
    if favoriteUnitIds.contains oldUnit.id then favoriteUnit.map fun fu => fu.reason
    else none
  let favoriteCreatedAt : Option Int :=
    if favoriteUnitIds.contains oldUnit.id then favoriteUnit.map fun fu => fu.createdAt
    else none
  { id := oldUnit.id
    name := oldUnit.name
    status := status
    features := (oldUnitFeatures.filter fun uf => uf.unitId == oldUnit.id).map
      fun uf => { featureId := uf.featureId, value := uf.value }
    -- the spread `...(favoriteReason && { favoriteReason })` drops the field
    -- when the string is empty (falsy); likewise a zero timestamp.
    favoriteReason := favoriteReason.bind fun r => if r == "" then none else some r
    favoriteCreatedAt := favoriteCreatedAt.bind fun n => if n == 0 then none else some n }

/-- Body of the `collectionOldLevels.forEach` closure: filter the three
per-collection lists down to this level and convert the level. -/
def migrateLevel (oldUnitFeatures : List UnitFeature)
    (recommendedAll : List RecommendedUnit) (trashedAll : List TrashedUnit)
    (favoriteAll : List FavoriteUnit) (oldLevel : OldLevel) : Level :=
  let recommendedUnits := recommendedAll.filter fun ru => ru.levelId == oldLevel.id
  let trashedUnits := trashedAll.filter fun tu => tu.levelId == oldLevel.id
  let favoriteUnits := favoriteAll.filter fun fu => fu.levelId == oldLevel.id
  { id := oldLevel.id
    name := oldLevel.name
    identifier := oldLevel.identifier
    units := oldLevel.units.map (deriveUnit oldUnitFeatures recommendedUnits trashedUnits favoriteUnits)
    createdAt := oldLevel.createdAt }

/-- Body of the `oldCollections.forEach` closure: select this collection's
levels and read the three per-collection mappings (missing key ⇒ `[]`,
via `?.filter(...) || []`). -/
def migrateCollection (oldLevels : List OldLevel) (oldUnitFeatures : List UnitFeature)
    (oldRecommendedUnits : List (String × List RecommendedUnit))
    (oldTrashedUnits : List (String × List TrashedUnit))
    (oldFavoriteUnits : List (String × List FavoriteUnit))
    (oldCollection : OldCollection) : Collection :=
  { id := oldCollection.id
    name := oldCollection.name
    createdAt := oldCollection.createdAt
    levels := (oldLevels.filter fun level => level.collectionId == oldCollection.id).map
      (migrateLevel oldUnitFeatures
        (jsLookupD oldRecommendedUnits oldCollection.id [])
        (jsLookupD oldTrashedUnits oldCollection.id [])
        (jsLookupD oldFavoriteUnits oldCollection.id [])) }

/-- Forward transform `DataMigration.migrateToUnifiedStructure`. -/
def migrateToUnifiedStructure (oldCollections : List OldCollection)
    (oldLevels : List OldLevel) (oldFeatures : List OldFeature)
    (oldUnitFeatures : List UnitFeature)
    (oldRecommendedUnits : List (String × List RecommendedUnit))
    (oldTrashedUnits : List (String × List TrashedUnit))
    (oldFavoriteUnits : List (String × List FavoriteUnit)) : DataStructure :=
  { features := oldFeatures.foldl
      (fun m f => setKey m f.id { id := f.id, name := f.name, type := f.type, createdAt := f.createdAt })
      []
    collections := oldCollections.map
      (migrateCollection oldLevels oldUnitFeatures oldRecommendedUnits oldTrashedUnits oldFavoriteUnits) }

/-- Result record of `DataMigration.migrateToOldStructure`. -/
structure OldBundle where
  collections : List OldCollection
  levels : List OldLevel
  features : List OldFeature
  unitFeatures : List UnitFeature
  recommendedUnits : List (String × List RecommendedUnit)
  trashedUnits : List (String × List TrashedUnit)
  favoriteUnits : List (String × List FavoriteUnit)
deriving DecidableEq, Repr

/-- Projection `{ id: unit.id, name: unit.name }` used by the inverse
transform when pushing units into legacy lists. -/
def unitToOld (u : Unit) : OldUnit :=
  { id := u.id, name := u.name }

/-- Legacy level emitted by the inverse transform for a level owned by the
collection with id `cid`. -/
def levelToOld (cid : String) (l : Level) : OldLevel :=
  { id := l.id, collectionId := cid, name := l.name, identifier := l.identifier
    units := l.units.map unitToOld, createdAt := l.createdAt }

/-- Entries pushed into `oldRecommendedUnits[collection.id]` for one
collection (level-major order, as the nested `forEach` loops produce). -/
def recommendedEntries (c : Collection) : List RecommendedUnit :=
  c.levels.flatMap fun l =>
    (l.units.filter fun u => u.status == .recommended).map fun u =>
      { unit := unitToOld u, levelName := l.name, levelId := l.id, collectionId := c.id }

/-- Entries pushed into `oldTrashedUnits[collection.id]` for one collection. -/
def trashedEntries (c : Collection) : List TrashedUnit :=
  c.levels.flatMap fun l =>
    (l.units.filter fun u => u.status == .trash).map fun u =>
      { unit := unitToOld u, levelName := l.name, levelId := l.id, collectionId := c.id }

/-- Entries pushed into `oldFavoriteUnits[collection.id]` for one collection.
The source computes `reason: unit.favoriteReason || "无"` and
`createdAt: unit.favoriteCreatedAt || Date.now()`; the impure `Date.now()`
is passed in as the explicit `now` argument. -/
def favoriteEntries (now : Int) (c : Collection) : List FavoriteUnit :=
  c.levels.flatMap fun l =>
    (l.units.filter fun u => u.status == .favorite).map fun u =>
      { unit := unitToOld u, levelName := l.name, levelId := l.id, collectionId := c.id
        reason := jsOrStr u.favoriteReason "无"
        createdAt := jsOrInt u.favoriteCreatedAt now }

/-- Inverse transform `DataMigration.migrateToOldStructure`.  The push-based
loops of the source are rendered functionally: the flat lists accumulate in
collection-major, level-major, unit-major order, exactly as the nested
`forEach` pushes produce them, and each per-collection mapping key is
assigned the full list of that collection's entries (the source initialises
`old...Units[collection.id] = []` and then pushes, so a later collection
with the same id overwrites the earlier one's list — `setKey` reproduces
that). -/
def migrateToOldStructure (now : Int) (newData : DataStructure) : OldBundle :=
  { features := newData.features.map fun p =>
      { id := p.2.id, collectionId := "global", name := p.2.name
        type := p.2.type, createdAt := p.2.createdAt }
    collections := newData.collections.map fun c =>
      { id := c.id, name := c.name, createdAt := c.createdAt }
    levels := newData.collections.flatMap fun c => c.levels.map (levelToOld c.id)
    unitFeatures := newData.collections.flatMap fun c =>
      c.levels.flatMap fun l => l.units.flatMap fun u =>
        u.features.map fun f => { unitId := u.id, featureId := f.featureId, value := f.value }
    recommendedUnits := newData.collections.foldl
      (fun m c => setKey m c.id (recommendedEntries c)) []
    trashedUnits := newData.collections.foldl
      (fun m c => setKey m c.id (trashedEntries c)) []
    favoriteUnits := newData.collections.foldl
      (fun m c => setKey m c.id (favoriteEntries now c)) [] }

/-- Apply the forward transform to a legacy bundle record. -/
def applyForward (b : OldBundle) : DataStructure :=
  migrateToUnifiedStructure b.collections b.levels b.features b.unitFeatures
    b.recommendedUnits b.trashedUnits b.favoriteUnits

/-! Helper views used by the theorems. -/

/-- All units of a structure, flattened collection-major. -/
def allUnits (d : DataStructure) : List Unit :=
  d.collections.flatMap fun c => c.levels.flatMap fun l => l.units

/-- Ids of all units of a structure. -/
def allUnitIds (d : DataStructure) : List String :=
  (allUnits d).map fun u => u.id

/-- Erase the favorite metadata of a unit. -/
def stripUnit (u : Unit) : Unit :=
  { u with favoriteReason := none, favoriteCreatedAt := none }

/-- Erase the favorite metadata of every unit of a level. -/
def stripLevel (l : Level) : Level :=
  { l with units := l.units.map stripUnit }

/-- Erase the favorite metadata of every unit of a collection. -/
def stripColl (c : Collection) : Collection :=
  { c with levels := c.levels.map stripLevel }

/-- Erase the favorite metadata of every unit of a structure.  Two
structures are "equivalent" in the round-trip sense precisely when their
`stripFav` images are equal: everything (ids, names, identifiers, statuses,
feature values, creation times of collections and levels, the feature map)
must agree except the units' `favoriteReason` / `favoriteCreatedAt`. -/
def stripFav (d : DataStructure) : DataStructure :=
  { d with collections := d.collections.map stripColl }

/-! Unified Data Manager, from `src/utils/unifiedDataManager.ts`.  The
manager's single piece of state is its `DataStructure`; each mutating
method is embedded as a function from the structure (plus the arguments)
to the new structure, each getter as a function to its return value.
Caller-supplied indices are `Int` (JS numbers may be negative). -/

/-- Bounds test `0 <= i && i < len` used by every index-based method. -/
def inBounds (i : Int) (len : Nat) : Prop :=
  0 ≤ i ∧ i < (len : Int)

instance (i : Int) (len : Nat) : Decidable (inBounds i len) := by
  unfold inBounds; infer_instance

/-- `removeCollection`: splice the collection out when the index is in
bounds, otherwise do nothing. -/
def removeCollection (d : DataStructure) (collectionIndex : Int) : DataStructure :=
  if inBounds collectionIndex d.collections.length then
    { d with collections := d.collections.eraseIdx collectionIndex.toNat }
  else d

/-- `updateCollection`: replace the collection at the index when in bounds. -/
def updateCollection (d : DataStructure) (collectionIndex : Int) (collection : Collection) : DataStructure :=
  if inBounds collectionIndex d.collections.length then
    { d with collections := d.collections.set collectionIndex.toNat collection }
  else d

/-- `getCollection`: return the collection at the index, `undefined` when
out of bounds. -/
def getCollection (d : DataStructure) (collectionIndex : Int) : Option Collection :=
  if inBounds collectionIndex d.collections.length then
    d.collections[collectionIndex.toNat]?
  else none

/-- Replace the collection at an index (helper for the level/unit mutators,
which in the source mutate the collection object aliased inside the
array; the pure rendering writes the updated collection back). -/
def setCollectionAt (d : DataStructure) (i : Int) (c : Collection) : DataStructure :=
  { d with collections := d.collections.set i.toNat c }

/-- `removeLevel`: no-op when the collection is missing or the level index
is out of bounds. -/
def removeLevel (d : DataStructure) (collectionIndex levelIndex : Int) : DataStructure :=
  match getCollection d collectionIndex with
  | none => d
  | some collection =>
      if inBounds levelIndex collection.levels.length then
        setCollectionAt d collectionIndex
          { collection with levels := collection.levels.eraseIdx levelIndex.toNat }
      else d

/-- `updateLevel`. -/
def updateLevel (d : DataStructure) (collectionIndex levelIndex : Int) (level : Level) : DataStructure :=
  match getCollection d collectionIndex with
  | none => d
  | some collection =>
      if inBounds levelIndex collection.levels.length then
        setCollectionAt d collectionIndex
          { collection with levels := collection.levels.set levelIndex.toNat level }
      else d

/-- `getLevel`. -/
def getLevel (d : DataStructure) (collectionIndex levelIndex : Int) : Option Level :=
  match getCollection d collectionIndex with
  | none => none
  | some collection =>
      if inBounds levelIndex collection.levels.length then
        collection.levels[levelIndex.toNat]?
      else none

/-- Write back a level inside its collection (pure rendering of the
source's in-place mutation of the aliased level object). -/
def setLevelAt (d : DataStructure) (collectionIndex levelIndex : Int) (l : Level) : DataStructure :=
  match getCollection d collectionIndex with
  | none => d
  | some collection =>
      setCollectionAt d collectionIndex
        { collection with levels := collection.levels.set levelIndex.toNat l }

/-- `removeUnit`. -/
def removeUnit (d : DataStructure) (collectionIndex levelIndex unitIndex : Int) : DataStructure :=
  match getLevel d collectionIndex levelIndex with
  | none => d
  | some level =>
      if inBounds unitIndex level.units.length then
        setLevelAt d collectionIndex levelIndex
          { level with units := level.units.eraseIdx unitIndex.toNat }
      else d

/-- `updateUnit`. -/
def updateUnit (d : DataStructure) (collectionIndex levelIndex unitIndex : Int) (unit : Unit) : DataStructure :=
  match getLevel d collectionIndex levelIndex with
  | none => d
  | some level =>
      if inBounds unitIndex level.units.length then
        setLevelAt d collectionIndex levelIndex
          { level with units := level.units.set unitIndex.toNat unit }
      else d

/-- `updateUnitStatus`: set the status; when it is `favorite`, set
`favoriteReason` (default `"无"` through `favoriteReason || "无"`) and
`favoriteCreatedAt = Date.now()` (the impure clock is the `now` argument);
otherwise delete both fields. -/
def updateUnitStatus (d : DataStructure) (collectionIndex levelIndex unitIndex : Int)
    (status : UnitStatus) (favoriteReason : Option String) (now : Int) : DataStructure :=
  match getLevel d collectionIndex levelIndex with
  | none => d
  | some level =>
      if h : inBounds unitIndex level.units.length then
        let unit := level.units.get ⟨unitIndex.toNat, by
          rcases h with ⟨h0, hlt⟩
          omega⟩
        let unit' : Unit :=
          if status = .favorite then
            { unit with
              status := status,
              favoriteReason := some (jsOrStr favoriteReason "无"),
              favoriteCreatedAt := some now }
          else
            { unit with
              status := status,
              favoriteReason := none, favoriteCreatedAt := none }
        setLevelAt d collectionIndex levelIndex
          { level with units := level.units.set unitIndex.toNat unit' }
      else d

/-- `removeFeature`: strip the feature id from every unit's `features`
list across all collections and levels, then delete the feature entry. -/
def removeFeature (d : DataStructure) (featureId : String) : DataStructure :=
  { collections := d.collections.map fun collection =>
      { collection with levels := collection.levels.map fun level =>
          { level with units := level.units.map fun unit =>
              { unit with features := unit.features.filter fun f => f.featureId != featureId } } }
    features := removeKey d.features featureId }

/-! JSON-level model, for the import/load paths.  `JSON.parse` is a
platform primitive; a string that fails to parse makes it throw, which the
source catches.  Parsing is therefore modelled as a value of type
`Option Json` (the parse result, `none` meaning the parse threw), and
the import/load functions receive it in place of the raw string. -/

/-- Dynamically-typed JSON value (what `JSON.parse` returns). -/
inductive Json where
  | null
  | flag (b : Bool)
  | num (n : Int)
  | str (s : String)
  | arr (elems : List Json)
  | obj (fields : List (String × Json))

/-- JS truthiness of a value (empty arrays and objects are truthy). -/
def Json.truthy : Json → Bool
  | .null => false
  | .flag b => b
  | .num n => n != 0
  | .str s => s != ""
  | .arr _ => true
  | .obj _ => true

/-- Property access `v.k`: `none` is JS `undefined` (non-objects have no
such properties; the validators only access properties of truthy values). -/
def Json.getProp : Json → String → Option Json
  | .obj fields, k => jsLookup fields k
  | _, _ => none

/-- Test `Array.isArray(v)`. -/
def Json.isArr : Json → Bool
  | .arr _ => true
  | _ => false

/-- Test for the check `typeof v === "object" && v !== null` applied to a
*present* property: plain objects and arrays pass, `null` fails
(`typeof null` is `"object"` but the null test rejects it), everything
else (including an absent property, whose `typeof` is `"undefined"`) fails. -/
def Json.isObjectNonNull : Option Json → Bool
  | some (.obj _) => true
  | some (.arr _) => true
  | _ => false

/-- Shape predicate `UnifiedDataManager.validateDataStructure` (the load
path of `UnifiedStorage.loadUnifiedData` inlines the same conjunction):
`data && Array.isArray(data.collections) && typeof data.features === "object"
&& data.features !== null`. -/
def validateDataStructure (data : Json) : Bool :=
  data.truthy
    && (match data.getProp "collections" with
        | some c => c.isArr
        | none => false)
    && Json.isObjectNonNull (data.getProp "features")

/-- The manager's in-memory structure at the JSON level (the source stores
whatever object `JSON.parse` produced, without further checks). -/
def emptyJson : Json :=
  .obj [("collections", .arr []), ("features", .obj [])]

/-- `UnifiedDataManager.importFromJSON`: `parsed` is the `JSON.parse`
result (`none` = the parse threw, caught by the source's `catch`).  The
pair is (returned boolean, manager structure after the call). -/
def importFromJSON (data : Json) (parsed : Option Json) : Bool × Json :=
  match parsed with
  | none => (false, data)
  | some parsedData =>
      if validateDataStructure parsedData then (true, parsedData)
      else (false, data)

/-! Unified Storage Gateway, from `src/unnamed/part_000`. -/

/-- Result of one `AsyncStorage.getItem` call: a value (`none` = the key is
absent, i.e. the promise resolved with `null`) or a rejection. -/
inductive GetResult where
  | ok (v : Option String)
  | err

/-- A storage state answers every key with a `GetResult`. -/
def Store : Type :=
  String → GetResult

/-- Key of the unified data blob. -/
def UNIFIED_DATA_KEY : String :=
  "@sf_app:unified_data"

/-- Key of the migration-completion marker. -/
def MIGRATION_FLAG_KEY : String :=
  "@sf_app:migration_completed"

/-- Legacy collections key probed by `needsMigration`. -/
def OLD_COLLECTIONS_KEY : String :=
  "@sf_app:collections"

/-- `UnifiedStorage.needsMigration`: `false` once the marker equals
`"true"`; otherwise `true` iff the legacy collections key is present; any
storage rejection is caught and yields `false`. -/
def needsMigration (st : Store) : Bool :=
  match st MIGRATION_FLAG_KEY with
  | .err => false
  | .ok migrationFlag =>
      if migrationFlag == some "true" then false
      else
        match st OLD_COLLECTIONS_KEY with
        | .err => false
        | .ok oldCollections => oldCollections.isSome

/-- `UnifiedStorage.loadUnifiedData`: delegate to `migrate()` when
migration is needed (the migration path is outside this claim's scope and
is passed in as the opaque `migrateResult`); otherwise read the unified
key, parse (`parse` models `JSON.parse`; `none` = it threw), validate the
shape and return the parsed value, falling back to the empty default on a
missing key, a parse failure, a failed shape check or a storage rejection. -/
def loadUnifiedData (st : Store) (parse : String → Option Json)
    (migrateResult : Json) : Json :=
  if needsMigration st then migrateResult
  else
    match st UNIFIED_DATA_KEY with
    | .err => emptyJson
    | .ok none => emptyJson
    | .ok (some jsonValue) =>
        match parse jsonValue with
        | none => emptyJson
        | some parsedData =>
            if validateDataStructure parsedData then parsedData else emptyJson

/-! Wire-format predicate written from the specification text (§6), used
only to compare the code's shape validator against the documented
interchange format.  Unlike every other definition in this file, it is
derived from the spec's words, not from the source. -/

/-- Property is present and a string. -/
def strProp (j : Json) (k : String) : Bool :=
  match j.getProp k with
  | some (.str _) => true
  | _ => false

/-- Property is present and a number. -/
def numProp (j : Json) (k : String) : Bool :=
  match j.getProp k with
  | some (.num _) => true
  | _ => false

/-- Spec §6 shape of one `features` entry of a unit:
`{"featureId":string,"value":number|boolean}`. -/
def specFeatureValueJson (j : Json) : Bool :=
  strProp j "featureId"
    && (match j.getProp "value" with
        | some (.num _) => true
        | some (.flag _) => true
        | _ => false)

/-- Spec §6 shape of a unit. -/
def specUnitJson (j : Json) : Bool :=
  strProp j "id" && strProp j "name"
    && (match j.getProp "status" with
        | some (.str s) =>
            s == "normal" || s == "recommended" || s == "favorite" || s == "trash"
        | _ => false)
    && (match j.getProp "features" with
        | some (.arr es) => es.all specFeatureValueJson
        | _ => false)
    && (match j.getProp "favoriteReason" with
        | none => true
        | some (.str _) => true
        | _ => false)
    && (match j.getProp "favoriteCreatedAt" with
        | none => true
        | some (.num _) => true
        | _ => false)

/-- Spec §6 shape of a level. -/
def specLevelJson (j : Json) : Bool :=
  strProp j "id" && strProp j "name"
    && (match j.getProp "identifier" with
        | some (.str s) => s == "numeric" || s == "alpha"
        | _ => false)
    && (match j.getProp "units" with
        | some (.arr us) => us.all specUnitJson
        | _ => false)
    && numProp j "createdAt"

/-- Spec §6 shape of a collection. -/
def specCollectionJson (j : Json) : Bool :=
  strProp j "id" && strProp j "name" && numProp j "createdAt"
    && (match j.getProp "levels" with
        | some (.arr ls) => ls.all specLevelJson
        | _ => false)

/-- Spec §6 shape of a feature. -/
def specFeatureJson (j : Json) : Bool :=
  strProp j "id" && strProp j "name"
    && (match j.getProp "type" with
        | some (.str s) => s == "numeric" || s == "single_choice"
        | _ => false)
    && numProp j "createdAt"

/-- Spec §6 wire format of a whole `DataStructure`: `collections` is an
array of collection-shaped objects and `features` is an object mapping ids
to feature-shaped objects. -/
def specWireFormat (j : Json) : Bool :=
  (match j.getProp "collections" with
    | some (.arr cs) => cs.all specCollectionJson
    | _ => false)
    && (match j.getProp "features" with
        | some (.obj fs) => fs.all fun p => specFeatureJson p.2
        | _ => false)

/-! Generic lemmas about the association-list helpers. -/

theorem jsLookup_removeKey_self {α : Type} (m : List (String × α)) (k : String) :
    jsLookup (removeKey m k) k = none := by
  have hfind : (removeKey m k).find? (fun p => p.1 == k) = none := by
    apply List.find?_eq_none.mpr
    intro p hp
    have := (List.mem_filter.mp hp).2
    simpa [bne_iff_ne] using this
  simp [jsLookup, hfind]

theorem jsLookup_removeKey_ne {α : Type} (m : List (String × α)) (k k' : String)
    (h : k' ≠ k) : jsLookup (removeKey m k) k' = jsLookup m k' := by
  induction m with
  | nil => rfl
  | cons p rest ih =>
      by_cases hp : p.1 = k
      · have h1 : (p.1 != k) = false := by simp [hp]
        have h2 : (p.1 == k') = false := by
          apply beq_eq_false_iff_ne.mpr
          rw [hp]
          exact fun e => h e.symm
        simp only [removeKey, List.filter_cons, h1, Bool.false_eq_true, if_false] at ih ⊢
        simp only [jsLookup, List.find?_cons, h2] at ih ⊢
        exact ih
      · by_cases hk : p.1 = k'
        · have h1 : (p.1 != k) = true := by simpa [bne_iff_ne] using hp
          have h2 : (p.1 == k') = true := by simp [hk]
          simp only [removeKey, List.filter_cons, h1, if_true]
          simp only [jsLookup, List.find?_cons, h2, Option.map_some]
        · have h1 : (p.1 != k) = true := by simpa [bne_iff_ne] using hp
          have h2 : (p.1 == k') = false := by simp [hk]
          simp only [removeKey, List.filter_cons, h1, if_true] at ih ⊢
          simp only [jsLookup, List.find?_cons, h2] at ih ⊢
          exact ih

/-- Membership of a unit id in the favorite list recorded for a collection
and level of a legacy bundle (stated directly over the legacy mapping,
independently of the id-set construction the migration code uses). -/
def favMember (oldFavoriteUnits : List (String × List FavoriteUnit))
    (cid lid uid : String) : Prop :=
  ∃ fu ∈ jsLookupD oldFavoriteUnits cid [], fu.levelId = lid ∧ fu.unit.id = uid

/-- Membership of a unit id in the recommended list for a collection+level. -/
def recMember (oldRecommendedUnits : List (String × List RecommendedUnit))
    (cid lid uid : String) : Prop :=
  ∃ ru ∈ jsLookupD oldRecommendedUnits cid [], ru.levelId = lid ∧ ru.unit.id = uid

/-- Membership of a unit id in the trashed list for a collection+level. -/
def trashMember (oldTrashedUnits : List (String × List TrashedUnit))
    (cid lid uid : String) : Prop :=
  ∃ tu ∈ jsLookupD oldTrashedUnits cid [], tu.levelId = lid ∧ tu.unit.id = uid

instance (m : List (String × List FavoriteUnit)) (cid lid uid : String) :
    Decidable (favMember m cid lid uid) := by
  unfold favMember
  infer_instance

instance (m : List (String × List RecommendedUnit)) (cid lid uid : String) :
    Decidable (recMember m cid lid uid) := by
  unfold recMember
  infer_instance

instance (m : List (String × List TrashedUnit)) (cid lid uid : String) :
    Decidable (trashMember m cid lid uid) := by
  unfold trashMember
  infer_instance

/-- The id-set membership test the migration performs (contains over a
filtered, projected list) coincides with direct membership in the legacy
mapping entry. -/
theorem contains_filter_map_iff {α : Type} (lst : List α) (lev idf : α → String)
    (lid uid : String) :
    (((lst.filter fun x => lev x == lid).map fun x => idf x).contains uid = true) ↔
      ∃ x ∈ lst, lev x = lid ∧ idf x = uid := by
  simp [List.mem_filter, beq_iff_eq, and_assoc]

/-- An in-bounds `Int` index converts to a `Nat` index below the length. -/
theorem inBounds_toNat_lt {i : Int} {len : Nat} (h : inBounds i len) : i.toNat < len := by
  rcases h with ⟨h0, h1⟩
  omega

/-- Successful `getCollection` means the index is in bounds and hits. -/
theorem getCollection_eq_some {d : DataStructure} {ci : Int} {c' : Collection}
    (h : getCollection d ci = some c') :
    inBounds ci d.collections.length ∧ d.collections[ci.toNat]? = some c' := by
  unfold getCollection at h
  by_cases h1 : inBounds ci d.collections.length
  · simp only [h1, if_true] at h
    exact ⟨h1, h⟩
  · simp [h1] at h

/-- Successful `getLevel` decomposes into a successful `getCollection` and
an in-bounds level index. -/
theorem getLevel_eq_some {d : DataStructure} {ci li : Int} {lv : Level}
    (h : getLevel d ci li = some lv) :
    ∃ col, getCollection d ci = some col ∧ inBounds li col.levels.length ∧
      col.levels[li.toNat]? = some lv := by
  unfold getLevel at h
  cases hgc : getCollection d ci with
  | none => rw [hgc] at h; simp at h
  | some col =>
      rw [hgc] at h
      by_cases h2 : inBounds li col.levels.length
      · simp only [h2, if_true] at h
        exact ⟨col, rfl, h2, h⟩
      · simp [h2] at h

/-- Writing a level back at indices where a level was readable makes it
the one `getLevel` returns. -/
theorem getLevel_setLevelAt (d : DataStructure) (ci li : Int) (lv newLv : Level)
    (h : getLevel d ci li = some lv) :
    getLevel (setLevelAt d ci li newLv) ci li = some newLv := by
  obtain ⟨col, hgc, h2, hlv⟩ := getLevel_eq_some h
  obtain ⟨h1, hcol⟩ := getCollection_eq_some hgc
  unfold setLevelAt
  rw [hgc]
  unfold getLevel getCollection setCollectionAt
  have hlt : ci.toNat < d.collections.length := inBounds_toNat_lt h1
  have h1' : inBounds ci (d.collections.set ci.toNat
      { col with levels := col.levels.set li.toNat newLv }).length := by
    rw [List.length_set]
    exact h1
  simp only [h1', if_true, List.getElem?_set_self hlt]
  have h2' : inBounds li (col.levels.set li.toNat newLv).length := by
    rw [List.length_set]
    exact h2
  simp only [h2', if_true, List.getElem?_set_self (inBounds_toNat_lt h2)]

/-! Theorems settling the claims. -/

/-- C2: after `removeFeature f`, no unit anywhere keeps a `features` entry
with that feature id, the id is gone from the root `features` record, and
everything else — every other key of the record and every other feature
entry of every unit, along with all ids, names, statuses and favorite
metadata — is preserved (the fourth conjunct equates full projections, the
new units' feature lists being exactly the old ones with the removed id
filtered out). -/
theorem removeFeature_cascades (d : DataStructure) (fid : String) :
    ((removeFeature d fid).collections.all fun c => c.levels.all fun l =>
        l.units.all fun u => u.features.all fun f => f.featureId != fid) = true
  ∧ jsLookup (removeFeature d fid).features fid = none
  ∧ (∀ k, k ≠ fid → jsLookup (removeFeature d fid).features k = jsLookup d.features k)
  ∧ (removeFeature d fid).collections.map (fun c => (c.id, c.name, c.createdAt,
        c.levels.map fun l => (l.id, l.name, l.identifier, l.createdAt,
          l.units.map fun u => (u.id, u.name, u.status, u.favoriteReason, u.favoriteCreatedAt, u.features)))) =
      d.collections.map (fun c => (c.id, c.name, c.createdAt,
        c.levels.map fun l => (l.id, l.name, l.identifier, l.createdAt,
          l.units.map fun u => (u.id, u.name, u.status, u.favoriteReason, u.favoriteCreatedAt,
            u.features.filter fun f => f.featureId != fid)))) := by
  refine ⟨?_, jsLookup_removeKey_self d.features fid,
    fun k hk => jsLookup_removeKey_ne d.features fid k hk, ?_⟩
  · simp only [removeFeature, List.all_eq_true]
    intro c hc
    simp only [List.mem_map] at hc
    obtain ⟨c0, hc0, rfl⟩ := hc
    intro l hl
    simp only [List.mem_map] at hl
    obtain ⟨l0, hl0, rfl⟩ := hl
    intro u hu
    simp only [List.mem_map] at hu
    obtain ⟨u0, hu0, rfl⟩ := hu
    intro f hf
    exact (List.mem_filter.mp hf).2
  · simp [removeFeature, List.map_map, Function.comp]

/-- Concrete instance of `removeFeature_cascades`, discharging its `k ≠ fid`
hypothesis at `k = "g"`, `fid = "f"`. -/
theorem removeFeature_cascades_witness :
    jsLookup (removeFeature ⟨[⟨"c", "C", 0, [⟨"l", "L", .numeric,
        [⟨"u", "U", .normal, [⟨"f", .num 1⟩, ⟨"g", .num 2⟩], none, none⟩], 0⟩]⟩],
      [("f", ⟨"f", "F", .numeric, 0⟩), ("g", ⟨"g", "G", .numeric, 0⟩)]⟩ "f").features "g" =
      jsLookup ([("f", ⟨"f", "F", .numeric, 0⟩), ("g", ⟨"g", "G", .numeric, 0⟩)] :
        List (String × Feature)) "g" :=
  (removeFeature_cascades ⟨[⟨"c", "C", 0, [⟨"l", "L", .numeric,
      [⟨"u", "U", .normal, [⟨"f", .num 1⟩, ⟨"g", .num 2⟩], none, none⟩], 0⟩]⟩],
    [("f", ⟨"f", "F", .numeric, 0⟩), ("g", ⟨"g", "G", .numeric, 0⟩)]⟩ "f").2.2.1 "g"
    (by decide)

/-- C5: when the parse result is absent (the string threw in `JSON.parse`)
or the parsed value fails the shape predicate, `importFromJSON` reports
failure and returns the manager's structure unchanged — the import is
all-or-nothing. -/
theorem importFromJSON_atomic (data : Json) (parsed : Option Json)
    (h : parsed = none ∨ ∀ v, parsed = some v → validateDataStructure v = false) :
    importFromJSON data parsed = (false, data) := by
  match parsed with
  | none => rfl
  | some v =>
      rcases h with h | h
      · exact absurd h (by simp)
      · simp [importFromJSON, h v rfl]

/-- Concrete instance of `importFromJSON_atomic`: importing parsed `null`
(which fails the shape check) leaves the empty structure untouched. -/
theorem importFromJSON_atomic_witness :
    importFromJSON emptyJson (some Json.null) = (false, emptyJson) :=
  importFromJSON_atomic emptyJson (some Json.null) (Or.inr fun v hv => by cases hv; rfl)

/-- A parsed JSON value that violates the §6 wire format in two ways: its
`collections` array contains a bare number, and its `features` property is
an array rather than an object. -/
def c9bad : Json :=
  .obj [("collections", .arr [.num 5]), ("features", .arr [])]

/-- C9: the shape predicate accepts `c9bad` (an array has `typeof`
`"object"` and is not `null`), so `importFromJSON` returns `true` and
installs it, although it does not conform to the documented wire format. -/
theorem import_accepts_nonconforming_json :
    validateDataStructure c9bad = true
  ∧ importFromJSON emptyJson (some c9bad) = (true, c9bad)
  ∧ specWireFormat c9bad = false :=
  ⟨rfl, rfl, rfl⟩

/-- C8: `needsMigration` returns `false` when the marker reads `"true"`;
with the marker absent it returns the presence of the legacy collections
key; and a rejection of either read makes it return `false`.  Being a
total function, it never throws. -/
theorem needsMigration_spec (st : Store) :
    (st MIGRATION_FLAG_KEY = .ok (some "true") → needsMigration st = false)
  ∧ (∀ o, st MIGRATION_FLAG_KEY = .ok none → st OLD_COLLECTIONS_KEY = .ok o →
        needsMigration st = o.isSome)
  ∧ (st MIGRATION_FLAG_KEY = .err → needsMigration st = false)
  ∧ (∀ f, st MIGRATION_FLAG_KEY = .ok f → f ≠ some "true" → st OLD_COLLECTIONS_KEY = .err →
        needsMigration st = false) := by
  refine ⟨?_, ?_, ?_, ?_⟩
  · intro h
    simp [needsMigration, h]
  · intro o h1 h2
    simp [needsMigration, h1, h2]
  · intro h
    simp [needsMigration, h]
  · intro f h1 h2 h3
    have : (f == some "true") = false := by simpa using h2
    simp [needsMigration, h1, h3, this]

/-- Store whose migration marker reads `"true"`. -/
def st8a : Store := fun k =>
  if k == MIGRATION_FLAG_KEY then .ok (some "true") else .ok none

/-- Store with no marker and a present legacy collections key. -/
def st8b : Store := fun k =>
  if k == MIGRATION_FLAG_KEY then .ok none
  else if k == OLD_COLLECTIONS_KEY then .ok (some "[]") else .ok none

/-- Concrete instances of `needsMigration_spec` on the two stores above. -/
theorem needsMigration_spec_witness :
    needsMigration st8a = false ∧ needsMigration st8b = true :=
  ⟨(needsMigration_spec st8a).1 rfl,
    (needsMigration_spec st8b).2.1 (some "[]") rfl rfl⟩

/-- C7: with migration not needed, `loadUnifiedData` is total (never
throws) and returns the parsed unified value exactly when the key holds a
parseable value of valid shape, and the empty default in every other case
(read rejection, missing key, parse failure, shape failure). -/
theorem loadUnifiedData_never_throws (st : Store) (parse : String → Option Json)
    (migrateResult : Json) (hm : needsMigration st = false) :
    (st UNIFIED_DATA_KEY = .err → loadUnifiedData st parse migrateResult = emptyJson)
  ∧ (st UNIFIED_DATA_KEY = .ok none → loadUnifiedData st parse migrateResult = emptyJson)
  ∧ (∀ s, st UNIFIED_DATA_KEY = .ok (some s) → parse s = none →
        loadUnifiedData st parse migrateResult = emptyJson)
  ∧ (∀ s v, st UNIFIED_DATA_KEY = .ok (some s) → parse s = some v →
        validateDataStructure v = false → loadUnifiedData st parse migrateResult = emptyJson)
  ∧ (∀ s v, st UNIFIED_DATA_KEY = .ok (some s) → parse s = some v →
        validateDataStructure v = true → loadUnifiedData st parse migrateResult = v) := by
  refine ⟨?_, ?_, ?_, ?_, ?_⟩
  · intro h
    simp [loadUnifiedData, hm, h]
  · intro h
    simp [loadUnifiedData, hm, h]
  · intro s h1 h2
    simp [loadUnifiedData, hm, h1, h2]
  · intro s v h1 h2 h3
    simp [loadUnifiedData, hm, h1, h2, h3]
  · intro s v h1 h2 h3
    simp [loadUnifiedData, hm, h1, h2, h3]

/-- Store used by the `loadUnifiedData` witness: migrated, with a blob
under the unified key. -/
def st7 : Store := fun k =>
  if k == UNIFIED_DATA_KEY then .ok (some "data") else .ok none

/-- Parse stub for the witness: the blob parses to the empty structure. -/
def parse7 : String → Option Json := fun _ => some emptyJson

/-- Concrete instance of `loadUnifiedData_never_throws`: a valid stored
value is returned as parsed. -/
theorem loadUnifiedData_never_throws_witness :
    needsMigration st7 = false
  ∧ validateDataStructure emptyJson = true
  ∧ loadUnifiedData st7 parse7 Json.null = emptyJson :=
  ⟨rfl, rfl,
    (loadUnifiedData_never_throws st7 parse7 Json.null rfl).2.2.2.2 "data" emptyJson
      rfl rfl rfl⟩

/-- C6: every index-based read/update/delete of the manager is a silent
no-op outside bounds: with the collection index out of range (negative or
past the end), or the parent collection/level missing, or the level/unit
index out of range, the mutators return the structure unchanged and the
getters return `undefined`; all functions are total, so nothing throws. -/
theorem index_out_of_bounds_noop (d : DataStructure) (ci li ui : Int)
    (c : Collection) (lv : Level) (u : Unit)
    (st : UnitStatus) (r : Option String) (now : Int) :
    (¬ inBounds ci d.collections.length →
        removeCollection d ci = d ∧ updateCollection d ci c = d ∧ getCollection d ci = none)
  ∧ (getCollection d ci = none →
        removeLevel d ci li = d ∧ updateLevel d ci li lv = d ∧ getLevel d ci li = none)
  ∧ (∀ c', getCollection d ci = some c' → ¬ inBounds li c'.levels.length →
        removeLevel d ci li = d ∧ updateLevel d ci li lv = d ∧ getLevel d ci li = none)
  ∧ (getLevel d ci li = none →
        removeUnit d ci li ui = d ∧ updateUnit d ci li ui u = d ∧
        updateUnitStatus d ci li ui st r now = d)
  ∧ (∀ l', getLevel d ci li = some l' → ¬ inBounds ui l'.units.length →
        removeUnit d ci li ui = d ∧ updateUnit d ci li ui u = d ∧
        updateUnitStatus d ci li ui st r now = d) := by
  refine ⟨?_, ?_, ?_, ?_, ?_⟩
  · intro h
    refine ⟨?_, ?_, ?_⟩ <;> simp [removeCollection, updateCollection, getCollection, h]
  · intro h
    refine ⟨?_, ?_, ?_⟩ <;> simp [removeLevel, updateLevel, getLevel, h]
  · intro c' h1 h2
    refine ⟨?_, ?_, ?_⟩ <;> simp [removeLevel, updateLevel, getLevel, h1, h2]
  · intro h
    refine ⟨?_, ?_, ?_⟩ <;> simp [removeUnit, updateUnit, updateUnitStatus, h]
  · intro l' h1 h2
    refine ⟨?_, ?_, ?_⟩ <;> simp [removeUnit, updateUnit, updateUnitStatus, h1, h2]

/-- Level with no units, for the out-of-bounds witness. -/
def l6 : Level := ⟨"l", "L", .numeric, [], 0⟩

/-- Collection holding `l6`. -/
def c6c : Collection := ⟨"c", "C", 0, [l6]⟩

/-- One-collection structure for the out-of-bounds witness. -/
def d6 : DataStructure := ⟨[c6c], []⟩

/-- Unit value passed to the update calls of the witness. -/
def u6 : Unit := ⟨"u", "U", .normal, [], none, none⟩

/-- Concrete instances of `index_out_of_bounds_noop`, exercising every
branch: out-of-range and negative collection indices, missing parents, and
out-of-range level/unit indices, on a structure with one collection whose
single level has no units. -/
theorem index_out_of_bounds_noop_witness :
    removeCollection d6 5 = d6 ∧ updateCollection d6 (-1) c6c = d6 ∧ getCollection d6 5 = none
  ∧ removeLevel d6 5 0 = d6 ∧ updateLevel d6 0 3 l6 = d6 ∧ getLevel d6 0 3 = none
  ∧ removeUnit d6 5 0 0 = d6 ∧ updateUnit d6 0 0 99 u6 = d6
  ∧ updateUnitStatus d6 0 0 99 UnitStatus.favorite none 7 = d6 := by
  have hA := index_out_of_bounds_noop d6 5 0 0 c6c l6 u6 .favorite none 7
  have hB := index_out_of_bounds_noop d6 (-1) 0 0 c6c l6 u6 .favorite none 7
  have hC := index_out_of_bounds_noop d6 0 3 0 c6c l6 u6 .favorite none 7
  have hD := index_out_of_bounds_noop d6 0 0 99 c6c l6 u6 .favorite none 7
  have hA1 := hA.1 (by decide)
  have hB1 := hB.1 (by decide)
  have hA2 := hA.2.1 (by decide)
  have hA4 := hA.2.2.2.1 (by decide)
  have hC3 := hC.2.2.1 c6c (by decide) (by decide)
  have hD5 := hD.2.2.2.2 l6 (by decide) (by decide)
  exact ⟨hA1.1, hB1.2.1, hA1.2.2, hA2.1, hC3.2.1, hC3.2.2, hA4.1, hD5.2.1, hD5.2.2⟩

/-- C10: the units of each migrated level are exactly, in order, the
entries of the legacy level's own `units` array (projected to id and
name); entries of the recommended/trashed/favorite mappings contribute no
units of their own, and a legacy level whose `collectionId` matches no
legacy collection contributes no level. -/
theorem migrate_units_exactly_legacy (oldCollections : List OldCollection)
    (oldLevels : List OldLevel) (oldFeatures : List OldFeature)
    (oldUnitFeatures : List UnitFeature)
    (oldRecommendedUnits : List (String × List RecommendedUnit))
    (oldTrashedUnits : List (String × List TrashedUnit))
    (oldFavoriteUnits : List (String × List FavoriteUnit)) :
    (migrateToUnifiedStructure oldCollections oldLevels oldFeatures oldUnitFeatures
        oldRecommendedUnits oldTrashedUnits oldFavoriteUnits).collections.map
        (fun c => c.levels.map fun l => (l.id, l.units.map fun u => (u.id, u.name))) =
      oldCollections.map fun oc =>
        (oldLevels.filter fun level => level.collectionId == oc.id).map fun ol =>
          (ol.id, ol.units.map fun ou => (ou.id, ou.name)) := by
  simp [migrateToUnifiedStructure, migrateCollection, migrateLevel, deriveUnit,
    List.map_map, Function.comp]

/-- C4: the migration derives every unit's status by first-match priority
favorite > recommended > trash > normal over membership of the unit's id
in the favorite/recommended/trashed lists recorded for its collection and
level; in particular a unit in both the favorite and trashed lists comes
out `favorite` (see the witness). -/
theorem migrate_status_priority (oldCollections : List OldCollection)
    (oldLevels : List OldLevel) (oldFeatures : List OldFeature)
    (oldUnitFeatures : List UnitFeature)
    (oldRecommendedUnits : List (String × List RecommendedUnit))
    (oldTrashedUnits : List (String × List TrashedUnit))
    (oldFavoriteUnits : List (String × List FavoriteUnit)) :
    ∀ c ∈ (migrateToUnifiedStructure oldCollections oldLevels oldFeatures oldUnitFeatures
        oldRecommendedUnits oldTrashedUnits oldFavoriteUnits).collections,
      ∀ l ∈ c.levels, ∀ u ∈ l.units,
        (u.status = .favorite ↔ favMember oldFavoriteUnits c.id l.id u.id)
      ∧ (u.status = .recommended ↔
          ¬ favMember oldFavoriteUnits c.id l.id u.id
            ∧ recMember oldRecommendedUnits c.id l.id u.id)
      ∧ (u.status = .trash ↔
          ¬ favMember oldFavoriteUnits c.id l.id u.id
            ∧ ¬ recMember oldRecommendedUnits c.id l.id u.id
            ∧ trashMember oldTrashedUnits c.id l.id u.id)
      ∧ (u.status = .normal ↔
          ¬ favMember oldFavoriteUnits c.id l.id u.id
            ∧ ¬ recMember oldRecommendedUnits c.id l.id u.id
            ∧ ¬ trashMember oldTrashedUnits c.id l.id u.id) := by
  intro c hc
  simp only [migrateToUnifiedStructure, List.mem_map] at hc
  obtain ⟨oc, hoc, rfl⟩ := hc
  intro l hl
  simp only [migrateCollection, List.mem_map] at hl
  obtain ⟨ol, hol, rfl⟩ := hl
  intro u hu
  simp only [migrateLevel, List.mem_map] at hu
  obtain ⟨ou, hou, rfl⟩ := hu
  simp only [migrateCollection, migrateLevel, deriveUnit]
  have hF := contains_filter_map_iff (jsLookupD oldFavoriteUnits oc.id [])
    (fun fu => fu.levelId) (fun fu => fu.unit.id) ol.id ou.id
  have hR := contains_filter_map_iff (jsLookupD oldRecommendedUnits oc.id [])
    (fun ru => ru.levelId) (fun ru => ru.unit.id) ol.id ou.id
  have hT := contains_filter_map_iff (jsLookupD oldTrashedUnits oc.id [])
    (fun tu => tu.levelId) (fun tu => tu.unit.id) ol.id ou.id
  by_cases bF : (((jsLookupD oldFavoriteUnits oc.id []).filter fun fu => fu.levelId == ol.id).map
      fun fu => fu.unit.id).contains ou.id = true
  · simp only [bF, if_true]
    have hFav : favMember oldFavoriteUnits oc.id ol.id ou.id := by
      rw [favMember]
      exact hF.mp bF
    simp [hFav]
  · by_cases bR : (((jsLookupD oldRecommendedUnits oc.id []).filter fun ru => ru.levelId == ol.id).map
        fun ru => ru.unit.id).contains ou.id = true
    · simp only [bF, bR, if_true, Bool.false_eq_true, if_false]
      have hFav : ¬ favMember oldFavoriteUnits oc.id ol.id ou.id := fun h => bF (hF.mpr h)
      have hRec : recMember oldRecommendedUnits oc.id ol.id ou.id := hR.mp bR
      simp [hFav, hRec]
    · by_cases bT : (((jsLookupD oldTrashedUnits oc.id []).filter fun tu => tu.levelId == ol.id).map
          fun tu => tu.unit.id).contains ou.id = true
      · simp only [bF, bR, bT, if_true, Bool.false_eq_true, if_false]
        have hFav : ¬ favMember oldFavoriteUnits oc.id ol.id ou.id := fun h => bF (hF.mpr h)
        have hRec : ¬ recMember oldRecommendedUnits oc.id ol.id ou.id := fun h => bR (hR.mpr h)
        have hTr : trashMember oldTrashedUnits oc.id ol.id ou.id := hT.mp bT
        simp [hFav, hRec, hTr]
      · simp only [bF, bR, bT, Bool.false_eq_true, if_false]
        have hFav : ¬ favMember oldFavoriteUnits oc.id ol.id ou.id := fun h => bF (hF.mpr h)
        have hRec : ¬ recMember oldRecommendedUnits oc.id ol.id ou.id := fun h => bR (hR.mpr h)
        have hTr : ¬ trashMember oldTrashedUnits oc.id ol.id ou.id := fun h => bT (hT.mpr h)
        simp [hFav, hRec, hTr]

/-- Legacy collections of the priority witness. -/
def c4oc : List OldCollection := [⟨"c", "C", 0⟩]

/-- Legacy levels of the priority witness: one level with one unit. -/
def c4ol : List OldLevel := [⟨"l", "c", "L", .numeric, [⟨"u", "U"⟩], 0⟩]

/-- The single unit sits in the trashed list of its collection+level... -/
def c4trash : List (String × List TrashedUnit) := [("c", [⟨⟨"u", "U"⟩, "L", "l", "c"⟩])]

/-- ...and simultaneously in the favorite list. -/
def c4fav : List (String × List FavoriteUnit) := [("c", [⟨⟨"u", "U"⟩, "L", "l", "c", "r", 5⟩])]

/-- The unit the migration produces for the conflicting bundle. -/
def c4u : Unit := ⟨"u", "U", .favorite, [], some "r", some 5⟩

/-- The level the migration produces. -/
def c4l : Level := ⟨"l", "L", .numeric, [c4u], 0⟩

/-- The collection the migration produces. -/
def c4c : Collection := ⟨"c", "C", 0, [c4l]⟩

/-- Concrete instance of `migrate_status_priority` on a unit present in
both the favorite and trashed lists of the same collection+level: the
derived status is `favorite`. -/
theorem migrate_status_priority_witness :
    ((c4u.status = .favorite ↔ favMember c4fav c4c.id c4l.id c4u.id)
      ∧ (c4u.status = .recommended ↔
          ¬ favMember c4fav c4c.id c4l.id c4u.id ∧ recMember [] c4c.id c4l.id c4u.id)
      ∧ (c4u.status = .trash ↔
          ¬ favMember c4fav c4c.id c4l.id c4u.id ∧ ¬ recMember [] c4c.id c4l.id c4u.id
            ∧ trashMember c4trash c4c.id c4l.id c4u.id)
      ∧ (c4u.status = .normal ↔
          ¬ favMember c4fav c4c.id c4l.id c4u.id ∧ ¬ recMember [] c4c.id c4l.id c4u.id
            ∧ ¬ trashMember c4trash c4c.id c4l.id c4u.id))
  ∧ c4u.status = .favorite := by
  have h := migrate_status_priority c4oc c4ol [] [] [] c4trash c4fav c4c (by decide)
    c4l (by decide) c4u (by decide)
  exact ⟨h, h.1.mpr (by decide)⟩

/-- C3 counterexample: migrating a legacy bundle whose favorite entry has
an empty `reason` string produces a unit with `status = favorite` but
`favoriteReason` absent (the JS spread drops the falsy empty string), so
"every favorite unit carries both fields" is false on the code. -/
theorem favorite_fields_counterexample :
    (allUnits (migrateToUnifiedStructure [⟨"c", "A", 0⟩]
        [⟨"l", "c", "L", .numeric, [⟨"u", "x"⟩], 0⟩] [] [] [] []
        [("c", [⟨⟨"u", "x"⟩, "L", "l", "c", "", 5⟩])])).map
      (fun u => (u.status, u.favoriteReason, u.favoriteCreatedAt)) =
    [(.favorite, none, some 5)] := by
  decide

/-- C3 (amended): (1) units produced by the migration never carry favorite
metadata when their status is not `favorite`; (2) the unit written by
`updateUnitStatus` satisfies the full biconditional
`status ≠ favorite ↔ both fields absent`; (3) a favorite unit produced by
the migration carries both fields provided the matching legacy favorite
entries have a non-empty `reason` and a non-zero `createdAt` (the
truthiness-based spread makes exactly those the preserved cases). -/
theorem favorite_invariant_amended :
    (∀ (oldCollections : List OldCollection) (oldLevels : List OldLevel)
        (oldFeatures : List OldFeature) (oldUnitFeatures : List UnitFeature)
        (oldRecommendedUnits : List (String × List RecommendedUnit))
        (oldTrashedUnits : List (String × List TrashedUnit))
        (oldFavoriteUnits : List (String × List FavoriteUnit)),
      ∀ c ∈ (migrateToUnifiedStructure oldCollections oldLevels oldFeatures oldUnitFeatures
          oldRecommendedUnits oldTrashedUnits oldFavoriteUnits).collections,
        ∀ l ∈ c.levels, ∀ u ∈ l.units, u.status ≠ .favorite →
          u.favoriteReason = none ∧ u.favoriteCreatedAt = none)
  ∧ (∀ (d : DataStructure) (ci li ui : Int) (st : UnitStatus) (r : Option String) (now : Int)
        (lv : Level), getLevel d ci li = some lv → inBounds ui lv.units.length →
      ∀ lv' u', getLevel (updateUnitStatus d ci li ui st r now) ci li = some lv' →
        lv'.units[ui.toNat]? = some u' →
        (u'.status ≠ .favorite ↔ u'.favoriteReason = none ∧ u'.favoriteCreatedAt = none))
  ∧ (∀ (oldCollections : List OldCollection) (oldLevels : List OldLevel)
        (oldFeatures : List OldFeature) (oldUnitFeatures : List UnitFeature)
        (oldRecommendedUnits : List (String × List RecommendedUnit))
        (oldTrashedUnits : List (String × List TrashedUnit))
        (oldFavoriteUnits : List (String × List FavoriteUnit)),
      ∀ c ∈ (migrateToUnifiedStructure oldCollections oldLevels oldFeatures oldUnitFeatures
          oldRecommendedUnits oldTrashedUnits oldFavoriteUnits).collections,
        ∀ l ∈ c.levels, ∀ u ∈ l.units, u.status = .favorite →
          (∀ fu ∈ jsLookupD oldFavoriteUnits c.id [], fu.levelId = l.id → fu.unit.id = u.id →
              fu.reason ≠ "" ∧ fu.createdAt ≠ 0) →
          u.favoriteReason.isSome = true ∧ u.favoriteCreatedAt.isSome = true) := by
  refine ⟨?_, ?_, ?_⟩
  · intro oldCollections oldLevels oldFeatures oldUnitFeatures oldRecommendedUnits
      oldTrashedUnits oldFavoriteUnits c hc
    simp only [migrateToUnifiedStructure, List.mem_map] at hc
    obtain ⟨oc, hoc, rfl⟩ := hc
    intro l hl
    simp only [migrateCollection, List.mem_map] at hl
    obtain ⟨ol, hol, rfl⟩ := hl
    intro u hu
    simp only [migrateLevel, List.mem_map] at hu
    obtain ⟨ou, hou, rfl⟩ := hu
    simp only [deriveUnit]
    intro hne
    by_cases bF : ((((jsLookupD oldFavoriteUnits oc.id []).filter
        fun fu => fu.levelId == ol.id).map fun fu => fu.unit.id).contains ou.id = true)
    · exfalso
      simp only [bF, if_true] at hne
      exact hne rfl
    · simp only [bF, Bool.false_eq_true, if_false]
      exact ⟨rfl, rfl⟩
  · intro d ci li ui st r now lv h hui lv' u' h3 h4
    unfold updateUnitStatus at h3
    rw [h] at h3
    simp only [dif_pos hui] at h3
    rw [getLevel_setLevelAt d ci li lv _ h] at h3
    obtain rfl := (Option.some.injEq _ _).mp h3.symm
    rw [List.getElem?_set_self (inBounds_toNat_lt hui)] at h4
    obtain rfl := (Option.some.injEq _ _).mp h4.symm
    by_cases hst : st = .favorite
    · simp [hst]
    · simp [hst]
  · intro oldCollections oldLevels oldFeatures oldUnitFeatures oldRecommendedUnits
      oldTrashedUnits oldFavoriteUnits c hc
    simp only [migrateToUnifiedStructure, List.mem_map] at hc
    obtain ⟨oc, hoc, rfl⟩ := hc
    intro l hl
    simp only [migrateCollection, List.mem_map] at hl
    obtain ⟨ol, hol, rfl⟩ := hl
    intro u hu
    simp only [migrateLevel, List.mem_map] at hu
    obtain ⟨ou, hou, rfl⟩ := hu
    simp only [migrateCollection, migrateLevel, deriveUnit]
    intro hfav hwf
    by_cases bF : ((((jsLookupD oldFavoriteUnits oc.id []).filter
        fun fu => fu.levelId == ol.id).map fun fu => fu.unit.id).contains ou.id = true)
    · have hex : ∃ fu ∈ ((jsLookupD oldFavoriteUnits oc.id []).filter
          fun fu => fu.levelId == ol.id).reverse, (fu.unit.id == ou.id) = true := by
        have hb := bF
        simp only [List.contains_iff_exists_mem_beq] at hb
        obtain ⟨x, hx, hxeq⟩ := hb
        simp only [List.mem_map] at hx
        obtain ⟨fu, hfu, rfl⟩ := hx
        exact ⟨fu, List.mem_reverse.mpr hfu, beq_iff_eq.mpr (beq_iff_eq.mp hxeq).symm⟩
      have hfind : (((jsLookupD oldFavoriteUnits oc.id []).filter
          fun fu => fu.levelId == ol.id).reverse.find? fun fu => fu.unit.id == ou.id).isSome := by
        rw [List.find?_isSome]
        exact hex
      obtain ⟨fu0, hfu0⟩ := Option.isSome_iff_exists.mp hfind
      have hp := List.find?_some hfu0
      have hmem : fu0 ∈ (jsLookupD oldFavoriteUnits oc.id []).filter
          fun fu => fu.levelId == ol.id := List.mem_reverse.mp (List.mem_of_find?_eq_some hfu0)
      have hmem2 := List.mem_filter.mp hmem
      have hwf0 := hwf fu0 hmem2.1 (by simpa using hmem2.2) (by simpa using hp)
      simp only [bF, if_true, hfu0]
      simpa using hwf0
    · exfalso
      rw [if_neg bF] at hfav
      by_cases bR : ((((jsLookupD oldRecommendedUnits oc.id []).filter
          fun ru => ru.levelId == ol.id).map fun ru => ru.unit.id).contains ou.id = true)
      · rw [if_pos bR] at hfav
        exact absurd hfav (by decide)
      · rw [if_neg bR] at hfav
        by_cases bT : ((((jsLookupD oldTrashedUnits oc.id []).filter
            fun tu => tu.levelId == ol.id).map fun tu => tu.unit.id).contains ou.id = true)
        · rw [if_pos bT] at hfav
          exact absurd hfav (by decide)
        · rw [if_neg bT] at hfav
          exact absurd hfav (by decide)

/-- Normal unit produced by the migration instance of the invariant witness. -/
def c3ua : Unit := ⟨"u", "x", .normal, [], none, none⟩

/-- Its level. -/
def c3la : Level := ⟨"l", "L", .numeric, [c3ua], 0⟩

/-- Its collection. -/
def c3ca : Collection := ⟨"c", "A", 0, [c3la]⟩

/-- Structure the `updateUnitStatus` instance of the witness starts from. -/
def c3db : DataStructure :=
  ⟨[⟨"c", "C", 0, [⟨"l", "L", .numeric, [⟨"u", "U", .normal, [], none, none⟩], 0⟩]⟩], []⟩

/-- Level read back after the status update. -/
def c3lb : Level := ⟨"l", "L", .numeric, [⟨"u", "U", .favorite, [], some "无", some 7⟩], 0⟩

/-- Unit written by the status update. -/
def c3ub : Unit := ⟨"u", "U", .favorite, [], some "无", some 7⟩

/-- Favorite unit produced by the well-formed favorite migration instance. -/
def c3uc : Unit := ⟨"u", "U", .favorite, [], some "r", some 5⟩

/-- Its level. -/
def c3lc : Level := ⟨"l", "L", .numeric, [c3uc], 0⟩

/-- Its collection. -/
def c3cc : Collection := ⟨"c", "C", 0, [c3lc]⟩

/-- Favorite mapping of the well-formed favorite migration instance. -/
def c3favc : List (String × List FavoriteUnit) := [("c", [⟨⟨"u", "U"⟩, "L", "l", "c", "r", 5⟩])]

/-- Concrete instances of all three parts of `favorite_invariant_amended`:
a migrated normal unit carries no favorite metadata; the unit written by
`updateUnitStatus (favorite)` satisfies the biconditional; a migrated
favorite unit with well-formed legacy entry carries both fields. -/
theorem favorite_invariant_amended_witness :
    (c3ua.favoriteReason = none ∧ c3ua.favoriteCreatedAt = none)
  ∧ (c3ub.status ≠ .favorite ↔ c3ub.favoriteReason = none ∧ c3ub.favoriteCreatedAt = none)
  ∧ (c3uc.favoriteReason.isSome = true ∧ c3uc.favoriteCreatedAt.isSome = true) := by
  obtain ⟨pa, pb, pc⟩ := favorite_invariant_amended
  refine ⟨?_, ?_, ?_⟩
  · exact pa [⟨"c", "A", 0⟩] [⟨"l", "c", "L", .numeric, [⟨"u", "x"⟩], 0⟩] [] [] [] [] []
      c3ca (by decide) c3la (by decide) c3ua (by decide) (by decide)
  · exact pb c3db 0 0 0 .favorite none 7 ⟨"l", "L", .numeric,
      [⟨"u", "U", .normal, [], none, none⟩], 0⟩ (by decide) (by decide)
      c3lb c3ub (by decide) (by decide)
  · exact pc [⟨"c", "C", 0⟩] [⟨"l", "c", "L", .numeric, [⟨"u", "U"⟩], 0⟩] [] [] [] [] c3favc
      c3cc (by decide) c3lc (by decide) c3uc (by decide) (by decide) (by decide)


theorem setKey_of_forall_ne {α : Type} (m : List (String × α)) (k : String) (v : α)
    (h : ∀ p ∈ m, p.1 ≠ k) : setKey m k v = m ++ [(k, v)] := by
  induction m with
  | nil => rfl
  | cons p rest ih =>
      have hp : (p.1 == k) = false := by
        simpa using h p (List.mem_cons_self p rest)
      simp only [setKey, hp, Bool.false_eq_true, if_false, List.cons_append]
      rw [ih fun q hq => h q (List.mem_cons_of_mem p hq)]

theorem foldl_setKey_append {α : Type} (l : List (String × α)) (acc : List (String × α))
    (hdisj : ∀ p ∈ l, ∀ q ∈ acc, q.1 ≠ p.1)
    (hnodup : (l.map Prod.fst).Nodup) :
    l.foldl (fun m p => setKey m p.1 p.2) acc = acc ++ l := by
  induction l generalizing acc with
  | nil => simp
  | cons p rest ih =>
      obtain ⟨hhead, htail⟩ := List.nodup_cons.mp hnodup
      have hstep : setKey acc p.1 p.2 = acc ++ [p] := by
        rw [setKey_of_forall_ne acc p.1 p.2 fun q hq => hdisj p (List.mem_cons_self p rest) q hq]
      simp only [List.foldl_cons, hstep]
      rw [ih (acc ++ [p]) ?_ htail]
      · simp
      · intro x hx q hq
        rcases List.mem_append.mp hq with hq | hq
        · exact hdisj x (List.mem_cons_of_mem p hx) q hq
        · have hqp : q = p := by simpa using hq
          subst hqp
          intro he
          exact hhead (he ▸ List.mem_map_of_mem Prod.fst hx)

theorem foldl_setKey_eq_map {α β : Type} (l : List β) (key : β → String) (val : β → α)
    (h : (l.map key).Nodup) :
    l.foldl (fun m x => setKey m (key x) (val x)) [] = l.map fun x => (key x, val x) := by
  have hkeys : ((l.map fun x => (key x, val x)).map Prod.fst).Nodup := by
    simpa [List.map_map, Function.comp] using h
  have := foldl_setKey_append (l.map fun x => (key x, val x)) [] (by simp) hkeys
  rw [List.foldl_map] at this
  simpa using this

theorem jsLookup_map_eq {α β : Type} (l : List β) (key : β → String) (val : β → α) (u : β)
    (h : (l.map key).Nodup) (hu : u ∈ l) :
    jsLookup (l.map fun x => (key x, val x)) (key u) = some (val u) := by
  induction l with
  | nil => cases hu
  | cons x rest ih =>
      obtain ⟨hhead, htail⟩ := List.nodup_cons.mp h
      rcases List.mem_cons.mp hu with rfl | hu
      · simp [jsLookup, List.find?_cons]
      · have hne : (key x == key u) = false := by
          apply beq_eq_false_iff_ne.mpr
          intro he
          exact hhead (he ▸ List.mem_map_of_mem key hu)
        simp only [List.map_cons, jsLookup, List.find?_cons, hne]
        exact ih htail hu


theorem flatMap_if_key_nil {α β : Type} (l : List α) (key : α → String) (g : α → List β)
    (k : String) (h : ∀ w ∈ l, key w ≠ k) :
    (l.flatMap fun w => if key w == k then g w else []) = [] := by
  induction l with
  | nil => rfl
  | cons x rest ih =>
      have hx : (key x == k) = false := by
        simpa using h x (List.mem_cons_self x rest)
      simp only [List.flatMap_cons, hx, Bool.false_eq_true, if_false, List.nil_append]
      exact ih fun w hw => h w (List.mem_cons_of_mem x hw)

theorem flatMap_if_key_eq {α β : Type} (l : List α) (key : α → String) (g : α → List β)
    (u : α) (hn : (l.map key).Nodup) (hu : u ∈ l) :
    (l.flatMap fun w => if key w == key u then g w else []) = g u := by
  induction l with
  | nil => cases hu
  | cons x rest ih =>
      obtain ⟨hhead, htail⟩ := List.nodup_cons.mp hn
      rcases List.mem_cons.mp hu with rfl | hu
      · simp only [List.flatMap_cons, beq_self_eq_true, if_true]
        rw [flatMap_if_key_nil rest key g (key u) fun w hw he =>
          hhead (he ▸ List.mem_map_of_mem key hw)]
        simp
      · have hne : (key x == key u) = false := by
          apply beq_eq_false_iff_ne.mpr
          intro he
          exact hhead (he ▸ List.mem_map_of_mem key hu)
        simp only [List.flatMap_cons, hne, Bool.false_eq_true, if_false, List.nil_append]
        exact ih htail hu

theorem sublist_flatMap_of_sublist {α β : Type} (l1 l2 : List α) (f : α → List β)
    (h : l1.Sublist l2) : (l1.flatMap f).Sublist (l2.flatMap f) := by
  induction h with
  | slnil => simp
  | cons a h ih => exact ih.trans (List.sublist_append_right (f a) _)
  | cons₂ a h ih =>
      simp only [List.flatMap_cons]
      exact ih.append_left (f a)

theorem mem_allUnits {d : DataStructure} {c : Collection} {l : Level} {u : Unit}
    (hc : c ∈ d.collections) (hl : l ∈ c.levels) (hu : u ∈ l.units) : u ∈ allUnits d := by
  simp only [allUnits, List.mem_flatMap]
  exact ⟨c, hc, l, hl, hu⟩


theorem status_unique_iff (d : DataStructure) (hu : (allUnitIds d).Nodup)
    {c : Collection} {l : Level} {u : Unit} (hc : c ∈ d.collections) (hl : l ∈ c.levels)
    (hum : u ∈ l.units) (s : UnitStatus) :
    (∃ l' ∈ c.levels, l'.id = l.id ∧ ∃ w ∈ l'.units, w.status = s ∧ w.id = u.id) ↔
      u.status = s := by
  constructor
  · rintro ⟨l', hl', hlid, w, hw, hws, hwid⟩
    have hinj := List.inj_on_of_nodup_map (f := fun x : Unit => x.id) (l := allUnits d) hu
    have hwmem := mem_allUnits hc hl' hw
    have humem := mem_allUnits hc hl hum
    have heq : w = u := hinj hwmem humem hwid
    rwa [← heq]
  · intro hs
    exact ⟨l, hl, rfl, u, hum, hs, rfl⟩

theorem entries_contains_iff {γ : Type} (c : Collection) (s : UnitStatus)
    (mk : Level → Unit → γ) (lev idf : γ → String)
    (hlev : ∀ l' w, lev (mk l' w) = l'.id) (hidf : ∀ l' w, idf (mk l' w) = w.id)
    (l : Level) (uid : String) :
    ((((c.levels.flatMap fun l' => ((l'.units.filter fun u => u.status == s).map (mk l'))).filter
        fun e => lev e == l.id).map fun e => idf e).contains uid = true) ↔
      ∃ l' ∈ c.levels, l'.id = l.id ∧ ∃ w ∈ l'.units, w.status = s ∧ w.id = uid := by
  rw [List.contains_iff_exists_mem_beq]
  simp only [List.mem_map, List.mem_filter, List.mem_flatMap, beq_iff_eq]
  constructor
  · rintro ⟨a', ⟨e, ⟨⟨l', hl', w, ⟨hw, hws⟩, rfl⟩, hlid⟩, rfl⟩, huid⟩
    rw [hlev] at hlid
    refine ⟨l', hl', hlid, w, hw, hws, ?_⟩
    rw [huid, hidf]
  · rintro ⟨l', hl', hlid, w, hw, hws, hwid⟩
    refine ⟨uid, ⟨mk l' w, ⟨⟨l', hl', w, ⟨hw, hws⟩, rfl⟩, ?_⟩, ?_⟩, rfl⟩
    · rw [hlev]
      exact hlid
    · rw [hidf]
      exact hwid


theorem oldUnitFeatures_eq (now : Int) (d : DataStructure) :
    (migrateToOldStructure now d).unitFeatures =
      (allUnits d).flatMap fun w => w.features.map fun f =>
        ({ unitId := w.id, featureId := f.featureId, value := f.value } : UnitFeature) := by
  simp [migrateToOldStructure, allUnits, List.flatMap_assoc]

theorem unitFeatures_extract (now : Int) (d : DataStructure) {c : Collection} {l : Level}
    {u : Unit} (hu : (allUnitIds d).Nodup) (hc : c ∈ d.collections) (hl : l ∈ c.levels)
    (hum : u ∈ l.units) :
    (((migrateToOldStructure now d).unitFeatures.filter fun uf => uf.unitId == u.id).map
      fun uf => ({ featureId := uf.featureId, value := uf.value } : UnitFeatureValue)) =
      u.features := by
  rw [oldUnitFeatures_eq, List.filter_flatMap]
  have hcong : ∀ w ∈ allUnits d,
      (((w.features.map fun f =>
          ({ unitId := w.id, featureId := f.featureId, value := f.value } : UnitFeature)).filter
        fun uf => uf.unitId == u.id))
        = if w.id == u.id then w.features.map (fun f =>
            ({ unitId := w.id, featureId := f.featureId, value := f.value } : UnitFeature))
          else [] := by
    intro w _
    by_cases hw : (w.id == u.id) = true
    · rw [if_pos hw]
      apply List.filter_eq_self.mpr
      intro x hx
      simp only [List.mem_map] at hx
      obtain ⟨f, hf, rfl⟩ := hx
      exact hw
    · rw [if_neg hw]
      apply List.filter_eq_nil_iff.mpr
      intro x hx
      simp only [List.mem_map] at hx
      obtain ⟨f, hf, rfl⟩ := hx
      exact hw
  rw [List.flatMap_congr hcong]
  rw [flatMap_if_key_eq (allUnits d) (fun w => w.id)
    (fun w => w.features.map fun f =>
      ({ unitId := w.id, featureId := f.featureId, value := f.value } : UnitFeature))
    u hu (mem_allUnits hc hl hum)]
  rw [List.map_map]
  exact (List.map_congr_left fun f _ => rfl).trans (List.map_id _)


theorem recUnits_lookup (now : Int) (d : DataStructure)
    (hc : (d.collections.map fun c => c.id).Nodup) {c : Collection} (hcm : c ∈ d.collections) :
    jsLookupD (migrateToOldStructure now d).recommendedUnits c.id [] = recommendedEntries c := by
  have h1 : (migrateToOldStructure now d).recommendedUnits =
      d.collections.map fun c' => (c'.id, recommendedEntries c') :=
    foldl_setKey_eq_map d.collections (fun c' => c'.id) recommendedEntries hc
  rw [jsLookupD, h1, jsLookup_map_eq d.collections (fun c' => c'.id) recommendedEntries c hc hcm]
  rfl

theorem trashUnits_lookup (now : Int) (d : DataStructure)
    (hc : (d.collections.map fun c => c.id).Nodup) {c : Collection} (hcm : c ∈ d.collections) :
    jsLookupD (migrateToOldStructure now d).trashedUnits c.id [] = trashedEntries c := by
  have h1 : (migrateToOldStructure now d).trashedUnits =
      d.collections.map fun c' => (c'.id, trashedEntries c') :=
    foldl_setKey_eq_map d.collections (fun c' => c'.id) trashedEntries hc
  rw [jsLookupD, h1, jsLookup_map_eq d.collections (fun c' => c'.id) trashedEntries c hc hcm]
  rfl

theorem favUnits_lookup (now : Int) (d : DataStructure)
    (hc : (d.collections.map fun c => c.id).Nodup) {c : Collection} (hcm : c ∈ d.collections) :
    jsLookupD (migrateToOldStructure now d).favoriteUnits c.id [] = favoriteEntries now c := by
  have h1 : (migrateToOldStructure now d).favoriteUnits =
      d.collections.map fun c' => (c'.id, favoriteEntries now c') :=
    foldl_setKey_eq_map d.collections (fun c' => c'.id) (favoriteEntries now) hc
  rw [jsLookupD, h1, jsLookup_map_eq d.collections (fun c' => c'.id) (favoriteEntries now) c hc hcm]
  rfl

theorem oldLevels_filter_eq (now : Int) (d : DataStructure)
    (hc : (d.collections.map fun c => c.id).Nodup) {c : Collection} (hcm : c ∈ d.collections) :
    ((migrateToOldStructure now d).levels.filter fun lv => lv.collectionId == c.id) =
      c.levels.map (levelToOld c.id) := by
  show ((d.collections.flatMap fun c' => c'.levels.map (levelToOld c'.id)).filter
      fun lv => lv.collectionId == c.id) = _
  rw [List.filter_flatMap]
  have hcong : ∀ c' ∈ d.collections,
      ((c'.levels.map (levelToOld c'.id)).filter fun lv => lv.collectionId == c.id) =
        if c'.id == c.id then c'.levels.map (levelToOld c'.id) else [] := by
    intro c' _
    by_cases hcc : (c'.id == c.id) = true
    · rw [if_pos hcc]
      apply List.filter_eq_self.mpr
      intro x hx
      simp only [List.mem_map] at hx
      obtain ⟨lv, _, rfl⟩ := hx
      exact hcc
    · rw [if_neg hcc]
      apply List.filter_eq_nil_iff.mpr
      intro x hx
      simp only [List.mem_map] at hx
      obtain ⟨lv, _, rfl⟩ := hx
      exact hcc
  rw [List.flatMap_congr hcong]
  exact flatMap_if_key_eq d.collections (fun c' => c'.id)
    (fun c' => c'.levels.map (levelToOld c'.id)) c hc hcm


theorem deriveUnit_strip_eq (now : Int) (d : DataStructure)
    (hu : (allUnitIds d).Nodup) {c : Collection} {l : Level} {u : Unit}
    (hc : c ∈ d.collections) (hl : l ∈ c.levels) (hum : u ∈ l.units) :
    stripUnit (deriveUnit (migrateToOldStructure now d).unitFeatures
      ((recommendedEntries c).filter fun ru => ru.levelId == (levelToOld c.id l).id)
      ((trashedEntries c).filter fun tu => tu.levelId == (levelToOld c.id l).id)
      ((favoriteEntries now c).filter fun fu => fu.levelId == (levelToOld c.id l).id)
      (unitToOld u)) = stripUnit u := by
  have hF : ((((favoriteEntries now c).filter fun fu => fu.levelId == l.id).map
      fun fu => fu.unit.id).contains u.id = true) ↔ u.status = .favorite :=
    (entries_contains_iff c .favorite
      (fun l' w => (⟨unitToOld w, l'.name, l'.id, c.id, jsOrStr w.favoriteReason "无",
        jsOrInt w.favoriteCreatedAt now⟩ : FavoriteUnit))
      (fun e => e.levelId) (fun e => e.unit.id) (fun l' w => rfl) (fun l' w => rfl)
      l u.id).trans (status_unique_iff d hu hc hl hum .favorite)
  have hR : ((((recommendedEntries c).filter fun ru => ru.levelId == l.id).map
      fun ru => ru.unit.id).contains u.id = true) ↔ u.status = .recommended :=
    (entries_contains_iff c .recommended
      (fun l' w => (⟨unitToOld w, l'.name, l'.id, c.id⟩ : RecommendedUnit))
      (fun e => e.levelId) (fun e => e.unit.id) (fun l' w => rfl) (fun l' w => rfl)
      l u.id).trans (status_unique_iff d hu hc hl hum .recommended)
  have hT : ((((trashedEntries c).filter fun tu => tu.levelId == l.id).map
      fun tu => tu.unit.id).contains u.id = true) ↔ u.status = .trash :=
    (entries_contains_iff c .trash
      (fun l' w => (⟨unitToOld w, l'.name, l'.id, c.id⟩ : TrashedUnit))
      (fun e => e.levelId) (fun e => e.unit.id) (fun l' w => rfl) (fun l' w => rfl)
      l u.id).trans (status_unique_iff d hu hc hl hum .trash)
  have hfeat := unitFeatures_extract now d hu hc hl hum
  simp only [deriveUnit, stripUnit, unitToOld, levelToOld, Unit.mk.injEq, true_and]
  refine ⟨?_, hfeat, trivial⟩
  by_cases bF : ((((favoriteEntries now c).filter fun fu => fu.levelId == l.id).map
      fun fu => fu.unit.id).contains u.id = true)
  · rw [if_pos bF]
    exact (hF.mp bF).symm
  · rw [if_neg bF]
    by_cases bR : ((((recommendedEntries c).filter fun ru => ru.levelId == l.id).map
        fun ru => ru.unit.id).contains u.id = true)
    · rw [if_pos bR]
      exact (hR.mp bR).symm
    · rw [if_neg bR]
      by_cases bT : ((((trashedEntries c).filter fun tu => tu.levelId == l.id).map
          fun tu => tu.unit.id).contains u.id = true)
      · rw [if_pos bT]
        exact (hT.mp bT).symm
      · rw [if_neg bT]
        cases hsu : u.status with
        | normal => rfl
        | recommended => exact absurd (hR.mpr hsu) bR
        | favorite => exact absurd (hF.mpr hsu) bF
        | trash => exact absurd (hT.mpr hsu) bT


theorem roundTrip_unified (now : Int) (d : DataStructure)
    (hc : (d.collections.map fun c => c.id).Nodup)
    (hu : (allUnitIds d).Nodup)
    (hf : (d.features.map Prod.fst).Nodup)
    (hkey : ∀ p ∈ d.features, p.1 = p.2.id) :
    stripFav (applyForward (migrateToOldStructure now d)) = stripFav d := by
  have hids : (d.features.map fun p => p.2.id).Nodup := by
    have heq : d.features.map (fun p => p.2.id) = d.features.map Prod.fst :=
      List.map_congr_left fun p hp => (hkey p hp).symm
    rw [heq]
    exact hf
  have hfeatures : (applyForward (migrateToOldStructure now d)).features = d.features := by
    show ((d.features.map fun p =>
        (⟨p.2.id, "global", p.2.name, p.2.type, p.2.createdAt⟩ : OldFeature)).foldl
      (fun m f => setKey m f.id (⟨f.id, f.name, f.type, f.createdAt⟩ : Feature)) []) = _
    rw [List.foldl_map]
    have hfold := foldl_setKey_eq_map d.features (fun p => p.2.id) (fun p => p.2) hids
    rw [show (fun (m : List (String × Feature)) (p : String × Feature) =>
        setKey m p.2.id (⟨p.2.id, p.2.name, p.2.type, p.2.createdAt⟩ : Feature)) =
      (fun m p => setKey m p.2.id p.2) from rfl]
    rw [hfold]
    have h2 : d.features.map (fun p => (p.2.id, p.2)) = d.features.map (fun p => (p.1, p.2)) :=
      List.map_congr_left fun p hp => by rw [hkey p hp]
    rw [h2]
    exact (List.map_congr_left fun p _ => rfl).trans (List.map_id _)
  have hcolls : (applyForward (migrateToOldStructure now d)).collections.map stripColl =
      d.collections.map stripColl := by
    show (((migrateToOldStructure now d).collections.map
      (migrateCollection (migrateToOldStructure now d).levels
        (migrateToOldStructure now d).unitFeatures
        (migrateToOldStructure now d).recommendedUnits
        (migrateToOldStructure now d).trashedUnits
        (migrateToOldStructure now d).favoriteUnits)).map stripColl) = _
    show (((d.collections.map fun c => (⟨c.id, c.name, c.createdAt⟩ : OldCollection)).map
      (migrateCollection (migrateToOldStructure now d).levels
        (migrateToOldStructure now d).unitFeatures
        (migrateToOldStructure now d).recommendedUnits
        (migrateToOldStructure now d).trashedUnits
        (migrateToOldStructure now d).favoriteUnits)).map stripColl) = _
    rw [List.map_map, List.map_map]
    apply List.map_congr_left
    intro c hcm
    show stripColl (migrateCollection (migrateToOldStructure now d).levels
      (migrateToOldStructure now d).unitFeatures
      (migrateToOldStructure now d).recommendedUnits
      (migrateToOldStructure now d).trashedUnits
      (migrateToOldStructure now d).favoriteUnits
      ⟨c.id, c.name, c.createdAt⟩) = stripColl c
    simp only [migrateCollection, stripColl]
    rw [recUnits_lookup now d hc hcm, trashUnits_lookup now d hc hcm,
      favUnits_lookup now d hc hcm, oldLevels_filter_eq now d hc hcm]
    simp only [Collection.mk.injEq, true_and]
    rw [List.map_map, List.map_map]
    apply List.map_congr_left
    intro l hlm
    show stripLevel (migrateLevel (migrateToOldStructure now d).unitFeatures
      (recommendedEntries c) (trashedEntries c) (favoriteEntries now c)
      (levelToOld c.id l)) = stripLevel l
    simp only [migrateLevel, stripLevel, levelToOld, Level.mk.injEq, true_and, and_true]
    rw [List.map_map, List.map_map]
    apply List.map_congr_left
    intro u hum
    exact deriveUnit_strip_eq now d hu hcm hlm hum
  simp only [stripFav, DataStructure.mk.injEq]
  exact ⟨hcolls, hfeatures⟩


theorem mem_setKey {α : Type} {m : List (String × α)} {k : String} {v : α} {p : String × α}
    (h : p ∈ setKey m k v) : p = (k, v) ∨ p ∈ m := by
  induction m with
  | nil => simpa [setKey] using h
  | cons q rest ih =>
      by_cases hq : (q.1 == k) = true
      · simp only [setKey, hq, if_true] at h
        rcases List.mem_cons.mp h with rfl | h
        · exact Or.inl rfl
        · exact Or.inr (List.mem_cons_of_mem q h)
      · simp only [setKey, hq, Bool.false_eq_true, if_false] at h
        rcases List.mem_cons.mp h with rfl | h
        · exact Or.inr (List.mem_cons_self p rest)
        · rcases ih h with h | h
          · exact Or.inl h
          · exact Or.inr (List.mem_cons_of_mem q h)

theorem keys_setKey_nodup {α : Type} (m : List (String × α)) (k : String) (v : α)
    (h : (m.map Prod.fst).Nodup) : ((setKey m k v).map Prod.fst).Nodup := by
  induction m with
  | nil => simp [setKey]
  | cons q rest ih =>
      obtain ⟨hhead, htail⟩ := List.nodup_cons.mp h
      by_cases hq : (q.1 == k) = true
      · simp only [setKey, hq, if_true, List.map_cons]
        apply List.nodup_cons.mpr
        refine ⟨?_, htail⟩
        rw [← beq_iff_eq.mp hq]
        exact hhead
      · simp only [setKey, hq, Bool.false_eq_true, if_false, List.map_cons]
        apply List.nodup_cons.mpr
        refine ⟨?_, ih htail⟩
        intro hmem
        simp only [List.mem_map] at hmem
        obtain ⟨p, hp, hpq⟩ := hmem
        rcases mem_setKey hp with rfl | hp
        · exact absurd hpq.symm (by simpa using hq)
        · exact hhead (hpq ▸ List.mem_map_of_mem Prod.fst hp)

theorem foldl_setKey_features_inv (l : List OldFeature) (acc : List (String × Feature))
    (h1 : (acc.map Prod.fst).Nodup) (h2 : ∀ p ∈ acc, p.1 = p.2.id) :
    ((l.foldl (fun m f => setKey m f.id (⟨f.id, f.name, f.type, f.createdAt⟩ : Feature)) acc).map
        Prod.fst).Nodup
      ∧ ∀ p ∈ l.foldl (fun m f => setKey m f.id (⟨f.id, f.name, f.type, f.createdAt⟩ : Feature)) acc,
          p.1 = p.2.id := by
  induction l generalizing acc with
  | nil => exact ⟨h1, h2⟩
  | cons f rest ih =>
      apply ih
      · exact keys_setKey_nodup _ _ _ h1
      · intro p hp
        rcases mem_setKey hp with rfl | hp
        · rfl
        · exact h2 p hp

theorem forward_collection_ids (oldCollections : List OldCollection)
    (oldLevels : List OldLevel) (oldFeatures : List OldFeature)
    (oldUnitFeatures : List UnitFeature)
    (oldRecommendedUnits : List (String × List RecommendedUnit))
    (oldTrashedUnits : List (String × List TrashedUnit))
    (oldFavoriteUnits : List (String × List FavoriteUnit)) :
    ((migrateToUnifiedStructure oldCollections oldLevels oldFeatures oldUnitFeatures
        oldRecommendedUnits oldTrashedUnits oldFavoriteUnits).collections.map fun c => c.id) =
      oldCollections.map fun oc => oc.id := by
  simp [migrateToUnifiedStructure, migrateCollection, List.map_map, Function.comp]

theorem forward_allUnitIds (oldCollections : List OldCollection)
    (oldLevels : List OldLevel) (oldFeatures : List OldFeature)
    (oldUnitFeatures : List UnitFeature)
    (oldRecommendedUnits : List (String × List RecommendedUnit))
    (oldTrashedUnits : List (String × List TrashedUnit))
    (oldFavoriteUnits : List (String × List FavoriteUnit)) :
    allUnitIds (migrateToUnifiedStructure oldCollections oldLevels oldFeatures oldUnitFeatures
        oldRecommendedUnits oldTrashedUnits oldFavoriteUnits) =
      oldCollections.flatMap fun oc =>
        (oldLevels.filter fun lv => lv.collectionId == oc.id).flatMap fun lv =>
          lv.units.map fun ou => ou.id := by
  simp only [allUnitIds, allUnits, migrateToUnifiedStructure, migrateCollection, migrateLevel,
    List.map_flatMap, List.flatMap_map, List.map_map]
  rfl


theorem forward_allUnitIds_nodup (oldCollections : List OldCollection)
    (oldLevels : List OldLevel) (oldFeatures : List OldFeature)
    (oldUnitFeatures : List UnitFeature)
    (oldRecommendedUnits : List (String × List RecommendedUnit))
    (oldTrashedUnits : List (String × List TrashedUnit))
    (oldFavoriteUnits : List (String × List FavoriteUnit))
    (hc : (oldCollections.map fun c => c.id).Nodup)
    (hu : ((oldLevels.flatMap fun lv => lv.units).map fun ou => ou.id).Nodup) :
    (allUnitIds (migrateToUnifiedStructure oldCollections oldLevels oldFeatures oldUnitFeatures
        oldRecommendedUnits oldTrashedUnits oldFavoriteUnits)).Nodup := by
  rw [forward_allUnitIds]
  have hu' : (oldLevels.flatMap fun lv => lv.units.map fun ou => ou.id).Nodup := by
    have h := hu
    rw [List.map_flatMap] at h
    exact h
  apply List.nodup_flatMap.mpr
  constructor
  · intro c hcm
    exact List.Nodup.sublist
      (sublist_flatMap_of_sublist _ _ _ (List.filter_sublist oldLevels)) hu'
  · have hpw : List.Pairwise (fun a b : OldCollection => a.id ≠ b.id) oldCollections :=
      List.pairwise_map.mp hc
    apply hpw.imp
    intro a b hab
    intro x hxa hxb
    simp only [List.mem_flatMap, List.mem_filter, List.mem_map] at hxa hxb
    obtain ⟨la, ⟨hla, hcda⟩, ua, hua, huaeq⟩ := hxa
    obtain ⟨lb, ⟨hlb, hcdb⟩, ub, hub, hubeq⟩ := hxb
    have hlab : la ≠ lb := by
      intro he
      apply hab
      rw [← beq_iff_eq.mp hcda, ← beq_iff_eq.mp hcdb, he]
    obtain ⟨-, hpwol⟩ := List.nodup_flatMap.mp hu'
    have hsymm : Symmetric (List.Disjoint on fun lv : OldLevel => lv.units.map fun ou => ou.id) :=
      fun p q h a ha hb => h hb ha
    have hdd := List.Pairwise.forall hsymm hpwol hla hlb hlab
    exact hdd (huaeq ▸ List.mem_map_of_mem (fun ou : OldUnit => ou.id) hua)
      (hubeq ▸ List.mem_map_of_mem (fun ou : OldUnit => ou.id) hub)

/-- C1 (amended): for every legacy bundle whose collection ids are
pairwise distinct and whose levels' unit ids are globally pairwise
distinct, forward-then-inverse-then-forward reproduces the first forward
result exactly, up to erasing the units' favorite metadata (`stripFav`);
in particular every status, feature-value list, name, identifier and
creation time agrees.  Both distinctness hypotheses are necessary: a
duplicated collection id duplicates levels, and a duplicated unit id
duplicates unit-feature rows (see the counterexample). -/
theorem roundtrip_amended (oldCollections : List OldCollection)
    (oldLevels : List OldLevel) (oldFeatures : List OldFeature)
    (oldUnitFeatures : List UnitFeature)
    (oldRecommendedUnits : List (String × List RecommendedUnit))
    (oldTrashedUnits : List (String × List TrashedUnit))
    (oldFavoriteUnits : List (String × List FavoriteUnit)) (now : Int)
    (hc : (oldCollections.map fun c => c.id).Nodup)
    (hu : ((oldLevels.flatMap fun lv => lv.units).map fun ou => ou.id).Nodup) :
    stripFav (applyForward (migrateToOldStructure now
        (migrateToUnifiedStructure oldCollections oldLevels oldFeatures oldUnitFeatures
          oldRecommendedUnits oldTrashedUnits oldFavoriteUnits))) =
      stripFav (migrateToUnifiedStructure oldCollections oldLevels oldFeatures oldUnitFeatures
        oldRecommendedUnits oldTrashedUnits oldFavoriteUnits) := by
  apply roundTrip_unified
  · rw [forward_collection_ids]
    exact hc
  · exact forward_allUnitIds_nodup oldCollections oldLevels oldFeatures oldUnitFeatures
      oldRecommendedUnits oldTrashedUnits oldFavoriteUnits hc hu
  · exact (foldl_setKey_features_inv oldFeatures [] (by simp) (by simp)).1
  · exact (foldl_setKey_features_inv oldFeatures [] (by simp) (by simp)).2


/-- Legacy levels of the round-trip counterexample: two units sharing the
id `"u"` in one level. -/
def cx1ol : List OldLevel := [⟨"l", "c", "L", .numeric, [⟨"u", "x"⟩, ⟨"u", "y"⟩], 0⟩]

/-- Forward migration of the counterexample bundle: one unit-feature row
attached (by id) to both homonymous units. -/
def cx1D : DataStructure :=
  migrateToUnifiedStructure [⟨"c", "A", 0⟩] cx1ol [] [⟨"u", "f", .num 1⟩] [] [] []

/-- C1 counterexample: on a legacy bundle with a duplicated unit id, the
second forward pass attaches the (now duplicated) unit-feature rows twice,
so the re-migrated structure differs from the first forward result in the
units' feature-value lists — the round-trip claim fails as universally
stated.  The second and third conjuncts exhibit the differing feature
lists of the same two units (in order). -/
theorem roundtrip_counterexample :
    stripFav (applyForward (migrateToOldStructure 0 cx1D)) ≠ stripFav cx1D
  ∧ (allUnits cx1D).map (fun u => u.features) = [[⟨"f", .num 1⟩], [⟨"f", .num 1⟩]]
  ∧ (allUnits (applyForward (migrateToOldStructure 0 cx1D))).map (fun u => u.features) =
      [[⟨"f", .num 1⟩, ⟨"f", .num 1⟩], [⟨"f", .num 1⟩, ⟨"f", .num 1⟩]] :=
  ⟨by decide, by decide, by decide⟩

/-- Legacy collections of the round-trip witness bundle. -/
def w1oc : List OldCollection := [⟨"c", "A", 0⟩]

/-- One level, two units with distinct ids. -/
def w1ol : List OldLevel := [⟨"l", "c", "L", .alpha, [⟨"u1", "x"⟩, ⟨"u2", "y"⟩], 3⟩]

/-- One feature. -/
def w1of : List OldFeature := [⟨"f1", "c", "F", .numeric, 7⟩]

/-- One unit-feature row. -/
def w1ouf : List UnitFeature := [⟨"u1", "f1", .num 2⟩]

/-- The second unit is recommended. -/
def w1rec : List (String × List RecommendedUnit) := [("c", [⟨⟨"u2", "y"⟩, "L", "l", "c"⟩])]

/-- The first unit is a favorite. -/
def w1fav : List (String × List FavoriteUnit) := [("c", [⟨⟨"u1", "x"⟩, "L", "l", "c", "r", 5⟩])]

/-- Concrete instance of `roundtrip_amended` on a bundle with distinct
collection and unit ids, a favorite, a recommended unit and a feature row. -/
theorem roundtrip_amended_witness :
    stripFav (applyForward (migrateToOldStructure 99
        (migrateToUnifiedStructure w1oc w1ol w1of w1ouf w1rec [] w1fav))) =
      stripFav (migrateToUnifiedStructure w1oc w1ol w1of w1ouf w1rec [] w1fav) :=
  roundtrip_amended w1oc w1ol w1of w1ouf w1rec [] w1fav 99 (by decide) (by decide)

end SfApp
